import Mathlib

/-!
Verification of the FTP directory-tree walker in `tfd/ftputil.py`
(`connect_and_login`, `walk`, `listdir`, `mlsd`, `_gather_dirs_and_files`).

The Python code is shallowly embedded below:

* Python string primitives (`str.strip`, `str.split(None, n)`,
  `str.split(sep, 1)`, `str.startswith`, `str.endswith`, `str.lower`) are
  embedded as executable Lean functions on `List Char` / `String`.
* `_gather_dirs_and_files` becomes `gatherLine` / `gatherLines`; a Python
  `IndexError` / `ValueError` is modelled with `Except String`.
* `walk` is embedded twice, at two levels of abstraction of the remote
  server: `walk` traverses an inductive directory tree `FTree` (the shape
  the network gives it when the remote file system is a finite tree), and
  `walkS` runs against a possibly-failing server map `String → Option _`
  with explicit fuel, returning the records yielded before a failure
  together with the failure, mirroring generator semantics.  The `urlsplit`
  path extraction is abstracted into the server map: the server is keyed by
  the url the walker asks it to list.
* `connect_and_login` is embedded as the trace of connection events its
  control flow produces, indexed by which branch is taken (connection
  supplied or not, login raises or not, body raises or not).
* the inner `parse` function of `mlsd` becomes `parse_mlsd_line`.
-/

deriving instance DecidableEq for Except

namespace Tfd

/-- Python whitespace, as used by `str.strip()` and `str.split(None, n)`. -/
def pyIsSpace (c : Char) : Bool :=
  c = ' ' || c = '\t' || c = '\n' || c = '\r' || c = '\x0b' || c = '\x0c'

def dropSpaces (cs : List Char) : List Char :=
  cs.dropWhile pyIsSpace

/-- Python `s.strip()`: remove leading and trailing whitespace. -/
def pyStrip (cs : List Char) : List Char :=
  (dropSpaces (dropSpaces cs).reverse).reverse

/-- Python `s.split(None, maxsplit)`: split on runs of whitespace, at most
`maxsplit` splits; after the last split the remainder (with leading
whitespace skipped) is the final field if it is nonempty. -/
def pySplitWS : Nat → List Char → List String
  | 0, cs =>
    let rest := dropSpaces cs
    if rest.isEmpty then [] else [String.mk rest]
  | Nat.succ n, cs =>
    let rest := dropSpaces cs
    if rest.isEmpty then []
    else
      String.mk (rest.takeWhile (fun c => !pyIsSpace c)) ::
        pySplitWS n (rest.dropWhile (fun c => !pyIsSpace c))

/-- Python `s.startswith(c)` for a one-character pattern. -/
def pyStartsWith (s : String) (c : Char) : Bool :=
  s.data.head? = some c

/-- Python `s.endswith('/')`: the last character is a slash. -/
def endsWithSlash (s : String) : Bool :=
  s.data.getLast? = some '/'

/-- The accumulator mutated by `_gather_dirs_and_files`'s closure `sub`:
the `dirs` and `files` lists of `listdir`. -/
structure Gathered where
  dirs : List String
  files : List String
deriving DecidableEq

/-- One call of the closure `sub` built by `_gather_dirs_and_files`
(ftputil.py lines 218-231) on a single raw LIST line.  A line starting
with `d` appends `line.strip().split(None, 8)[8]` to `dirs` unless that
name is `.` or `..`; a line starting with `-` appends it to `files`; any
other line is ignored.  The Python `[8]` raises `IndexError` when the
split has fewer than 9 fields; this is the `Except.error` case. -/
def gatherLine (acc : Gathered) (line : String) : Except String Gathered :=
  if pyStartsWith line 'd' then
    match (pySplitWS 8 (pyStrip line.data))[8]? with
    | none => Except.error "IndexError: list index out of range"
    | some dirname =>
      if dirname ≠ "." && dirname ≠ ".." then
        Except.ok { acc with dirs := acc.dirs ++ [dirname] }
      else
        Except.ok acc
  else if pyStartsWith line '-' then
    match (pySplitWS 8 (pyStrip line.data))[8]? with
    | none => Except.error "IndexError: list index out of range"
    | some filename => Except.ok { acc with files := acc.files ++ [filename] }
  else
    Except.ok acc

/-- The call `ftp.retrlines('LIST', _gather_dirs_and_files(dirs, files))`: feed each
raw LIST line to the accumulator in order, starting from empty lists; the
first raised exception aborts the listing. -/
def gatherLines (lines : List String) : Except String Gathered :=
  lines.foldlM gatherLine ⟨[], []⟩

/-- The parsing stage of `listdir` (ftputil.py lines 207-215): after `cwd`,
gather the LIST lines and return `(url, dirs, files)` with the url exactly
as passed in. -/
def listdir_lines (url : String) (lines : List String) :
    Except String (String × List String × List String) :=
  (gatherLines lines).map fun g => (url, g.dirs, g.files)

/-- A finite remote directory tree: each directory holds its subdirectories
(in server listing order, paired with their own trees) and its file names. -/
inductive FTree : Type where
  | node (subs : List (String × FTree)) (files : List String)

/-- The subdirectory entries of a directory. -/
def FTree.subs : FTree → List (String × FTree)
  | .node s _ => s

/-- The file names of a directory. -/
def FTree.files : FTree → List String
  | .node _ f => f

/-- The subdirectory names of a directory, in listing order. -/
def FTree.dirNames (t : FTree) : List String :=
  t.subs.map Prod.fst

/-- A listing record yielded by `walk`: `(currentUrl, dirnames, filenames)`. -/
abbrev Record := String × List String × List String

/-- The child url `sub_url = url + ('/' if not url.endswith('/') else '') + dirname`
(ftputil.py line 90). -/
def joinUrl (url dirname : String) : String :=
  url ++ (if endsWithSlash url then "" else "/") ++ dirname

mutual

/-- The generator `walk(url, depth, conn, ...)` (ftputil.py lines 80-93) run against a
remote file system that is the finite directory tree `t`: `listdir` returns
`(url, dirs, files)` with the url unchanged, that record is yielded, and
unless `depth == 0` the walker recurses into each subdirectory url in
listing order with `depth - 1`, yielding everything the recursive calls
yield. -/
def walk (url : String) (depth : Int) : FTree → List Record
  | FTree.node subs files =>
    (url, subs.map Prod.fst, files) ::
      (if depth = 0 then [] else walkSubs url depth subs)

/-- The `for dirname in dirs` loop of `walk` (ftputil.py lines 89-93). -/
def walkSubs (url : String) (depth : Int) : List (String × FTree) → List Record
  | [] => []
  | (dirname, sub) :: rest =>
    walk (joinUrl url dirname) (depth - 1) sub ++ walkSubs url depth rest

end

mutual

/-- Modelled from the spec: the depth-first pre-order sequence of listing
records of a directory tree — one record per directory, a directory's
record strictly before any record of its subdirectories, and the
subdirectories of a directory traversed in their listing order, each child
rooted at `parent-url + "/" + name`. -/
def specPreorder (url : String) : FTree → List Record
  | FTree.node subs files =>
    (url, subs.map Prod.fst, files) :: specPreorderSubs url subs

/-- Modelled from the spec: pre-order sequences of the children, in listing
order, concatenated. -/
def specPreorderSubs (url : String) : List (String × FTree) → List Record
  | [] => []
  | (dirname, sub) :: rest =>
    specPreorder (joinUrl url dirname) sub ++ specPreorderSubs url rest

end

mutual

/-- Modelled from the spec: the pre-order sequence truncated at `k` hops
below the root — the root's record, followed (when `k > 0`) by the
truncated sequences of the children at `k - 1`. -/
def specUpTo : Nat → String → FTree → List Record
  | k, url, FTree.node subs files =>
    (url, subs.map Prod.fst, files) ::
      (match k with
       | 0 => []
       | Nat.succ k => specUpToSubs k url subs)

/-- Modelled from the spec: truncated pre-order sequences of the children,
in listing order, concatenated. -/
def specUpToSubs : Nat → String → List (String × FTree) → List Record
  | _, _, [] => []
  | k, url, (dirname, sub) :: rest =>
    specUpTo k (joinUrl url dirname) sub ++ specUpToSubs k url rest

end

mutual

/-- The number of directories in a tree (the root counts). -/
def FTree.size : FTree → Nat
  | .node subs _ => 1 + sizeSubs subs

/-- Total number of directories in the children's trees. -/
def sizeSubs : List (String × FTree) → Nat
  | [] => 0
  | (_, sub) :: rest => FTree.size sub + sizeSubs rest

end

mutual

/-- The number of directories reachable within `k` hops below the root
(the root itself counts). -/
def countUpTo : Nat → FTree → Nat
  | k, .node subs _ =>
    1 + (match k with
         | 0 => 0
         | Nat.succ k => countUpToSubs k subs)

/-- Total number of directories within `k` hops in the children's trees. -/
def countUpToSubs : Nat → List (String × FTree) → Nat
  | _, [] => 0
  | k, (_, sub) :: rest => countUpTo k sub + countUpToSubs k rest

end

/-- The connection-level actions performed by `connect_and_login`. -/
inductive FtpEvent : Type where
  | connect
  | login
  | yieldConn
  | quit
  | raised
deriving DecidableEq

/-- The context manager `connect_and_login(url, ftp, username, password)` (ftputil.py lines
9-44), embedded as the sequence of connection events its control flow
produces, indexed by which branch is taken.  If `ftp` is not `None`
(`suppliedConn`), the connection is only yielded to the body, with no
connect, login, or quit; an exception raised by the body propagates.
Otherwise a fresh connection is opened, then inside `try:` the login runs
and the connection is yielded to the body; a bare `except:` calls
`ftp.quit()` and re-raises when the login or the body raises.  On normal
completion of the body no further statement runs: the `try` has no
`finally` and no `quit` follows it. -/
def connect_and_login (suppliedConn loginFails bodyFails : Bool) :
    List FtpEvent :=
  if suppliedConn then
    [FtpEvent.yieldConn] ++ (if bodyFails then [FtpEvent.raised] else [])
  else
    [FtpEvent.connect] ++
      (if loginFails then
        [FtpEvent.login, FtpEvent.quit, FtpEvent.raised]
      else
        [FtpEvent.login, FtpEvent.yieldConn] ++
          (if bodyFails then [FtpEvent.quit, FtpEvent.raised] else []))

/-- How many times `ftp.quit()` runs in a trace. -/
def quitCount (evts : List FtpEvent) : Nat :=
  evts.count FtpEvent.quit

/-- A remote server for the failure-aware model: maps the url the walker
asks it to list to `some (dirs, files)`, or `none` when the
change-directory request for that url's path is rejected (a "550" reply).
The `urlsplit` path extraction of `listdir` is abstracted into the map:
the server is keyed by the url it is asked about. -/
abbrev ServerMap := String → Option (List String × List String)

/-- The function `listdir(url, conn)` (ftputil.py lines 207-215) against a `ServerMap`:
`cwd` on a missing or inaccessible path raises `ftplib.error_perm` with the
server's 550 reply; otherwise the listing is returned with the url exactly
as passed in. -/
def listdirS (srv : ServerMap) (url : String) : Except String Record :=
  match srv url with
  | none => Except.error ("550 " ++ url ++ ": No such file or directory")
  | some (dirs, files) => Except.ok (url, dirs, files)

mutual

/-- The generator `walk` (ftputil.py lines 80-93) against a `ServerMap`, with generator
semantics made explicit: the result is the list of records yielded before
the generator finished, paired with `some errorMessage` if it finished by
raising (nothing is produced past the first error) and `none` if it
completed normally.  `fuel` bounds the recursion depth so that the
embedding is total on arbitrary server maps; every claim discharges it
with a positive concrete value. -/
def walkS (srv : ServerMap) : Nat → String → Int → List Record × Option String
  | 0, _, _ => ([], some "recursion limit reached")
  | Nat.succ fuel, url, depth =>
    match listdirS srv url with
    | Except.error e => ([], some e)
    | Except.ok (u, dirs, files) =>
      if depth = 0 then
        ([(u, dirs, files)], none)
      else
        let rest := walkSList srv fuel url depth dirs
        ((u, dirs, files) :: rest.1, rest.2)

/-- The `for dirname in dirs` loop of `walk` against a `ServerMap`: records
of earlier children stay yielded when a later child fails. -/
def walkSList (srv : ServerMap) :
    Nat → String → Int → List String → List Record × Option String
  | _, _, _, [] => ([], none)
  | fuel, url, depth, dirname :: rest =>
    let sub := walkS srv fuel (joinUrl url dirname) (depth - 1)
    match sub.2 with
    | some e => (sub.1, some e)
    | none =>
      let next := walkSList srv fuel url depth rest
      (sub.1 ++ next.1, next.2)

end

/-- Python `s.split(sep, 1)` when it produces two parts: split at the
first occurrence of `sep`.  `none` models the case where `sep` does not
occur, in which Python's two-variable unpacking of the one-element result
raises `ValueError`. -/
def pySplitOnce (sep : Char) : List Char → Option (List Char × List Char)
  | [] => none
  | c :: cs =>
    if c = sep then some ([], cs)
    else
      match pySplitOnce sep cs with
      | none => none
      | some (a, b) => some (c :: a, b)

/-- Python `s.lower()` (ASCII case folding, as used on fact keywords). -/
def pyLower (s : String) : String :=
  String.mk (s.data.map Char.toLower)

/-- The `while facts_str:` loop of `mlsd`'s inner `parse` function
(ftputil.py lines 175-180): repeatedly split the facts string at its first
`;`, split the resulting fact at `=` into exactly a keyword and a value
(more or fewer `=`-parts raise `ValueError`, as does a missing `;`), and
accumulate `(keyword.lower(), value)` pairs in order. -/
def parseFactsLoop (facts : List Char) :
    Except String (List (String × String)) :=
  if facts = [] then
    Except.ok []
  else
    match hsplit : pySplitOnce ';' facts with
    | none => Except.error "ValueError: not enough values to unpack"
    | some (fact, restFacts) =>
      match pySplitOnce '=' fact with
      | none => Except.error "ValueError: not enough values to unpack"
      | some (keyword, value) =>
        if value.contains '=' then
          Except.error "ValueError: too many values to unpack"
        else
          match parseFactsLoop restFacts with
          | Except.error e => Except.error e
          | Except.ok tail =>
            Except.ok ((pyLower (String.mk keyword), String.mk value) :: tail)
termination_by facts.length
decreasing_by
  have key : ∀ (sep : Char) (cs a b : List Char),
      pySplitOnce sep cs = some (a, b) → b.length < cs.length := by
    intro sep cs
    induction cs with
    | nil => intro a b h; simp [pySplitOnce] at h
    | cons c cs ih =>
      intro a b h
      simp only [pySplitOnce] at h
      by_cases hc : c = sep
      · rw [if_pos hc] at h
        injection h with hpair
        injection hpair with ha hb
        subst hb
        simp
      · rw [if_neg hc] at h
        cases hsub : pySplitOnce sep cs with
        | none => rw [hsub] at h; simp at h
        | some p =>
          rw [hsub] at h
          obtain ⟨p1, p2⟩ := p
          injection h with hpair
          injection hpair with ha hb
          subst hb
          have hlt := ih p1 p2 hsub
          simp only [List.length_cons]
          omega
  exact key ';' facts fact restFacts hsplit

/-- The inner `parse` function of `mlsd` (ftputil.py lines 170-182) on one
raw MLSD line: `facts_str, pathname = line.split(' ', 1)` (no space raises
`ValueError`), the facts loop above, then the entry
`(pathname.strip(), fact_list)`. -/
def parse_mlsd_line (line : String) :
    Except String (String × List (String × String)) :=
  match pySplitOnce ' ' line.data with
  | none => Except.error "ValueError: not enough values to unpack"
  | some (factsStr, pathname) =>
    match parseFactsLoop factsStr with
    | Except.error e => Except.error e
    | Except.ok facts => Except.ok (String.mk (pyStrip pathname), facts)

/-- Python `dict(fact_list)` viewed as a lookup: the value of the last pair
with the given key (later duplicates win), as built by `mlsd` when
`use_fact_dict` is true. -/
def factsDict (l : List (String × String)) (k : String) : Option String :=
  (l.reverse.find? (fun p => p.1 = k)).map Prod.snd

mutual

/-- Every directory name in the tree is nonempty and does not end with a
slash (true of names parsed from LIST lines, which are stripped tokens). -/
def goodNamesT : FTree → Bool
  | .node subs _ => goodNamesSubs subs

/-- Conjunction of `goodNamesT` over the children of a directory. -/
def goodNamesSubs : List (String × FTree) → Bool
  | [] => true
  | (dirname, sub) :: rest =>
    (dirname != "" && !endsWithSlash dirname) && goodNamesT sub &&
      goodNamesSubs rest

end

/-- Rebuild a raw MLSD facts string from keyword/value pairs: each pair
contributes `keyword=value;`, per RFC 3659's semicolon-terminated series. -/
def mkFacts : List (String × String) → String
  | [] => ""
  | (k, v) :: rest => k ++ "=" ++ v ++ ";" ++ mkFacts rest

/-- A fact pair is clean when neither its keyword nor its value contains
`=`, `;`, or a space — the RFC 3659 well-formedness condition the spec
quotes. -/
def cleanFact (p : String × String) : Prop :=
  ('=' ∉ p.1.data ∧ ';' ∉ p.1.data ∧ ' ' ∉ p.1.data) ∧
    ('=' ∉ p.2.data ∧ ';' ∉ p.2.data ∧ ' ' ∉ p.2.data)

instance (p : String × String) : Decidable (cleanFact p) := by
  unfold cleanFact; infer_instance

/-- All fact pairs in the list are clean. -/
def cleanFacts (l : List (String × String)) : Prop :=
  ∀ p ∈ l, cleanFact p

instance (l : List (String × String)) : Decidable (cleanFacts l) := by
  unfold cleanFacts; infer_instance

/-- A small sample directory tree used to instantiate universally
quantified theorems: a root with subdirectories `x` (holding file `f1`)
and `y` (holding subdirectory `z`), and a root file `r`. -/
def sampleTree : FTree :=
  FTree.node
    [("x", FTree.node [] ["f1"]), ("y", FTree.node [("z", FTree.node [] [])] [])]
    ["r"]

/-- Claim C4: when a caller-supplied, already-open connection is passed in
(`ftp is not None`), `connect_and_login` only yields it: no branch of its
control flow runs `ftp.quit()`, whether the body completes or raises, so
ownership stays with the caller. -/
theorem claim_C4 :
    ∀ loginFails bodyFails : Bool,
      quitCount (connect_and_login true loginFails bodyFails) = 0 := by
  decide

/-- Claim C3 (code bug): when `connect_and_login` opens the connection
itself, `ftp.quit()` runs only on the exception paths (login failure or an
exception in the body); on normal completion of the body the `try` block
has no `finally` and nothing after it, so the connection is never closed —
contradicting the claim (and the function's own docstring, ftputil.py
lines 12-13, "The ftp connection will be closed after the yield
statement"). -/
theorem claim_C3 :
    quitCount (connect_and_login false false false) = 0 ∧
    quitCount (connect_and_login false false true) = 1 ∧
    quitCount (connect_and_login false true true) = 1 := by
  decide

/-- Claim C5 (counterexample): a LIST line beginning with `-` whose parsed
name is exactly `.` does contribute an entry to the files list — the
`.`/`..` filter of `_gather_dirs_and_files` guards only the directory
branch, so the claim "contributes no entry at all ... neither to the files
list" fails on this line. -/
theorem claim_C5_counterexample :
    (pySplitWS 8 (pyStrip "-rw-r--r-- 1 ftp ftp 100 Jan 1 2020 .".data))[8]? =
      some "." ∧
    gatherLine ⟨[], []⟩ "-rw-r--r-- 1 ftp ftp 100 Jan 1 2020 ." =
      Except.ok ⟨[], ["."]⟩ := by
  decide

/-- Claim C5 (amended): a LIST line beginning with `d` whose parsed name is
exactly `.` or `..` contributes no entry; a line beginning with `-` is not
filtered and contributes its parsed name to the files list even when that
name is `.` or `..`. -/
theorem claim_C5 (acc : Gathered) (line : String) (name : String)
    (hname : (pySplitWS 8 (pyStrip line.data))[8]? = some name)
    (hdots : name = "." ∨ name = "..") :
    (pyStartsWith line 'd' = true → gatherLine acc line = Except.ok acc) ∧
    (pyStartsWith line '-' = true →
      gatherLine acc line = Except.ok ⟨acc.dirs, acc.files ++ [name]⟩) := by
  constructor
  · intro hd
    simp only [gatherLine, hd, if_true, hname]
    rcases hdots with h | h <;> subst h <;> simp
  · intro hdash
    have h1 : line.data.head? = some '-' := of_decide_eq_true hdash
    have h2 : pyStartsWith line 'd' = false := by
      simp [pyStartsWith, h1]
    simp only [gatherLine, h2, hdash, hname]
    simp

/-- Claim C5 witness: instantiating the amended claim on a concrete `d`
line named `..`. -/
theorem claim_C5_witness :
    (pySplitWS 8 (pyStrip "drwxr-xr-x 2 ftp ftp 4096 Jan 1 2020 ..".data))[8]? =
      some ".." ∧
    gatherLine ⟨[], []⟩ "drwxr-xr-x 2 ftp ftp 4096 Jan 1 2020 .." =
      Except.ok ⟨[], []⟩ :=
  ⟨by decide,
   (claim_C5 ⟨[], []⟩ "drwxr-xr-x 2 ftp ftp 4096 Jan 1 2020 .." ".."
      (by decide) (Or.inr rfl)).1 (by decide)⟩

/-- Claim C6 (counterexample): two lines beginning with `d` that do not
contribute a subdirectory name — one whose ninth field is `.` (filtered
out), and one with fewer than nine fields (the parser raises an
out-of-range error instead of contributing) — refuting "a line beginning
with 'd' contributes a subdirectory name" as a universal statement. -/
theorem claim_C6_counterexample :
    pyStartsWith "drwxr-xr-x 2 ftp ftp 4096 Jan 1 2020 ." 'd' = true ∧
    gatherLine ⟨[], []⟩ "drwxr-xr-x 2 ftp ftp 4096 Jan 1 2020 ." =
      Except.ok ⟨[], []⟩ ∧
    pyStartsWith "d 1 2 3 4 5 6 7" 'd' = true ∧
    gatherLine ⟨[], []⟩ "d 1 2 3 4 5 6 7" =
      Except.error "IndexError: list index out of range" := by
  decide

/-- Claim C6 (amended): on lines whose stripped text splits (with maxsplit
8) into nine fields, classification is by leading character: a line
beginning with `d` contributes the ninth field to subdirectories unless
that name is `.` or `..`; a line beginning with `-` contributes it to
files; a line with any other leading character contributes nothing
(regardless of field count); and the two example lines parse to
subdirectory `subdir` and file `readme.txt`. -/
theorem claim_C6 :
    (∀ (acc : Gathered) (line name : String),
      (pySplitWS 8 (pyStrip line.data))[8]? = some name →
        ((pyStartsWith line 'd' = true → ¬(name = "." ∨ name = "..") →
            gatherLine acc line = Except.ok ⟨acc.dirs ++ [name], acc.files⟩) ∧
          (pyStartsWith line '-' = true →
            gatherLine acc line = Except.ok ⟨acc.dirs, acc.files ++ [name]⟩))) ∧
    (∀ (acc : Gathered) (line : String),
      pyStartsWith line 'd' = false → pyStartsWith line '-' = false →
        gatherLine acc line = Except.ok acc) ∧
    gatherLines ["drwxr-xr-x 2 ftp ftp 4096 Jan 1 2020 subdir"] =
      Except.ok ⟨["subdir"], []⟩ ∧
    gatherLines ["-rw-r--r-- 1 ftp ftp 100 Jan 1 2020 readme.txt"] =
      Except.ok ⟨[], ["readme.txt"]⟩ := by
  refine ⟨?_, ?_, by decide, by decide⟩
  · intro acc line name hname
    constructor
    · intro hd hdots
      have h1 : name ≠ "." := fun h => hdots (Or.inl h)
      have h2 : name ≠ ".." := fun h => hdots (Or.inr h)
      simp [gatherLine, hd, hname, h1, h2]
    · intro hdash
      have h1 : line.data.head? = some '-' := of_decide_eq_true hdash
      have h2 : pyStartsWith line 'd' = false := by
        simp [pyStartsWith, h1]
      simp only [gatherLine, h2, hdash, hname]
      simp
  · intro acc line hd hdash
    simp [gatherLine, hd, hdash]

/-- Claim C6 witness: instantiating the amended claim on the example
directory line. -/
theorem claim_C6_witness :
    gatherLine ⟨[], []⟩ "drwxr-xr-x 2 ftp ftp 4096 Jan 1 2020 subdir" =
      Except.ok ⟨["subdir"], []⟩ :=
  (claim_C6.1 ⟨[], []⟩ "drwxr-xr-x 2 ftp ftp 4096 Jan 1 2020 subdir" "subdir"
      (by decide)).1 (by decide) (by decide)

/-- Claim C10: the LIST line parser is partial: a line beginning with `d`
or `-` whose stripped text splits into fewer than nine fields makes the
9th-field access fail with an out-of-range indexing error; with at least
nine fields the parser succeeds on such lines; and a failing line aborts
the enclosing `listdir` call (the error propagates, the line is not
skipped). -/
theorem claim_C10 :
    (∀ (acc : Gathered) (line : String),
      (pyStartsWith line 'd' = true ∨ pyStartsWith line '-' = true) →
      (pySplitWS 8 (pyStrip line.data)).length < 9 →
        gatherLine acc line =
          Except.error "IndexError: list index out of range") ∧
    (∀ (acc : Gathered) (line : String),
      (pyStartsWith line 'd' = true ∨ pyStartsWith line '-' = true) →
      9 ≤ (pySplitWS 8 (pyStrip line.data)).length →
        ∃ acc2, gatherLine acc line = Except.ok acc2) ∧
    (∀ (url : String) (pre post : List String) (bad : String)
        (acc : Gathered) (e : String),
      gatherLines pre = Except.ok acc →
      gatherLine acc bad = Except.error e →
        listdir_lines url (pre ++ bad :: post) = Except.error e) := by
  refine ⟨?_, ?_, ?_⟩
  · intro acc line hstart hlen
    have hnone : (pySplitWS 8 (pyStrip line.data))[8]? = none :=
      List.getElem?_eq_none (by omega)
    rcases hstart with hd | hdash
    · simp [gatherLine, hd, hnone]
    · have h1 : line.data.head? = some '-' := of_decide_eq_true hdash
      have h2 : pyStartsWith line 'd' = false := by
        simp [pyStartsWith, h1]
      simp [gatherLine, h2, hdash, hnone]
  · intro acc line hstart hlen
    have hlt : 8 < (pySplitWS 8 (pyStrip line.data)).length := by omega
    have hsome : (pySplitWS 8 (pyStrip line.data))[8]? =
        some ((pySplitWS 8 (pyStrip line.data))[8]) :=
      List.getElem?_eq_getElem hlt
    rcases hstart with hd | hdash
    · simp only [gatherLine, hd, if_true, hsome]
      split
      · exact ⟨_, rfl⟩
      · exact ⟨_, rfl⟩
    · have h1 : line.data.head? = some '-' := of_decide_eq_true hdash
      have h2 : pyStartsWith line 'd' = false := by
        simp [pyStartsWith, h1]
      simp only [gatherLine, h2, hdash, hsome]
      simp
  · intro url pre post bad acc e hpre hbad
    simp only [gatherLines] at hpre
    simp only [listdir_lines, gatherLines, List.foldlM_append, hpre,
      List.foldlM_cons]
    simp [bind, Except.bind, hbad, Except.map]

/-- Claim C10 witness: a directory line with only eight fields fails with
the indexing error, and such a line aborts a `listdir` call whose earlier
lines had already parsed. -/
theorem claim_C10_witness :
    gatherLine ⟨[], []⟩ "d 1 2 3 4 5 6 7" =
      Except.error "IndexError: list index out of range" ∧
    listdir_lines "ftp://h/a"
        (["drwxr-xr-x 2 ftp ftp 4096 Jan 1 2020 subdir"] ++
          "d 1 2 3 4 5 6 7" :: ["-rw-r--r-- 1 ftp ftp 100 Jan 1 2020 readme.txt"]) =
      Except.error "IndexError: list index out of range" :=
  ⟨claim_C10.1 ⟨[], []⟩ "d 1 2 3 4 5 6 7" (Or.inl (by decide)) (by decide),
   claim_C10.2.2 "ftp://h/a" ["drwxr-xr-x 2 ftp ftp 4096 Jan 1 2020 subdir"]
     ["-rw-r--r-- 1 ftp ftp 100 Jan 1 2020 readme.txt"] "d 1 2 3 4 5 6 7"
     ⟨["subdir"], []⟩ "IndexError: list index out of range"
     (by decide) (by decide)⟩

mutual

/-- With a negative depth bound, `walk` performs the full pre-order
traversal. -/
theorem walk_neg_eq_spec (url : String) (d : Int) (hd : d < 0) (t : FTree) :
    walk url d t = specPreorder url t := by
  cases t with
  | node subs files =>
    simp only [walk, specPreorder]
    rw [if_neg (by omega : ¬d = 0)]
    rw [walkSubs_neg_eq_spec url d hd subs]

/-- With a negative depth bound, the subdirectory loop of `walk` produces
the concatenated full pre-order traversals of the children. -/
theorem walkSubs_neg_eq_spec (url : String) (d : Int) (hd : d < 0)
    (l : List (String × FTree)) :
    walkSubs url d l = specPreorderSubs url l := by
  cases l with
  | nil => simp only [walkSubs, specPreorderSubs]
  | cons p rest =>
    obtain ⟨dirname, sub⟩ := p
    simp only [walkSubs, specPreorderSubs]
    rw [walk_neg_eq_spec (joinUrl url dirname) (d - 1) (by omega) sub,
      walkSubs_neg_eq_spec url d hd rest]

end

mutual

/-- The pre-order sequence has one record per directory of the tree. -/
theorem specPreorder_length (url : String) (t : FTree) :
    (specPreorder url t).length = FTree.size t := by
  cases t with
  | node subs files =>
    simp only [specPreorder, FTree.size, List.length_cons]
    rw [specPreorderSubs_length url subs]
    omega

/-- Lengths of the children's pre-order sequences sum to the children's
total size. -/
theorem specPreorderSubs_length (url : String) (l : List (String × FTree)) :
    (specPreorderSubs url l).length = sizeSubs l := by
  cases l with
  | nil => simp only [specPreorderSubs, sizeSubs, List.length_nil]
  | cons p rest =>
    obtain ⟨dirname, sub⟩ := p
    simp only [specPreorderSubs, sizeSubs, List.length_append]
    rw [specPreorder_length (joinUrl url dirname) sub,
      specPreorderSubs_length url rest]

end

/-- Claim C1: with `depth = -1`, `walk` yields exactly the depth-first
pre-order sequence of listing records of the tree (the spec-side
`specPreorder`: a directory's record strictly before its subdirectories'
records, subdirectories descended in listing order), and the number of
records equals the number of directories reachable from the root, so each
directory is visited exactly once. -/
theorem claim_C1 (url : String) (t : FTree) :
    walk url (-1) t = specPreorder url t ∧
    (walk url (-1) t).length = FTree.size t := by
  have h := walk_neg_eq_spec url (-1) (by omega) t
  exact ⟨h, by rw [h]; exact specPreorder_length url t⟩

mutual

/-- With a nonnegative depth bound `k`, `walk` yields the pre-order
sequence truncated at `k` hops below the root. -/
theorem walk_nat_eq_specUpTo (k : Nat) (url : String) (t : FTree) :
    walk url ((k : Int)) t = specUpTo k url t := by
  cases t with
  | node subs files =>
    cases k with
    | zero =>
      simp only [walk, specUpTo]
      rw [if_pos (by omega : ((0 : Nat) : Int) = 0)]
    | succ k =>
      simp only [walk, specUpTo]
      push_cast
      rw [if_neg (by omega : ¬(((k : Int) + 1)) = 0)]
      rw [walkSubs_nat_eq_specUpTo k url subs]

/-- With depth bound `k + 1`, the subdirectory loop of `walk` produces the
children's sequences truncated at `k`. -/
theorem walkSubs_nat_eq_specUpTo (k : Nat) (url : String)
    (l : List (String × FTree)) :
    walkSubs url (((k : Int) + 1)) l = specUpToSubs k url l := by
  cases l with
  | nil => simp only [walkSubs, specUpToSubs]
  | cons p rest =>
    obtain ⟨dirname, sub⟩ := p
    simp only [walkSubs, specUpToSubs]
    rw [(by omega : (((k : Int) + 1)) - 1 = (k : Int))]
    rw [walk_nat_eq_specUpTo k (joinUrl url dirname) sub,
      walkSubs_nat_eq_specUpTo k url rest]

end

mutual

/-- The truncated pre-order sequence has one record per directory within
`k` hops of the root. -/
theorem specUpTo_length (k : Nat) (url : String) (t : FTree) :
    (specUpTo k url t).length = countUpTo k t := by
  cases t with
  | node subs files =>
    cases k with
    | zero => simp only [specUpTo, countUpTo, List.length_cons, List.length_nil]
    | succ k =>
      simp only [specUpTo, countUpTo, List.length_cons]
      rw [specUpToSubs_length k url subs]
      omega

/-- Lengths of the children's truncated sequences sum to the count of
their directories within `k` hops. -/
theorem specUpToSubs_length (k : Nat) (url : String)
    (l : List (String × FTree)) :
    (specUpToSubs k url l).length = countUpToSubs k l := by
  cases l with
  | nil => simp only [specUpToSubs, countUpToSubs, List.length_nil]
  | cons p rest =>
    obtain ⟨dirname, sub⟩ := p
    simp only [specUpToSubs, countUpToSubs, List.length_append]
    rw [specUpTo_length k (joinUrl url dirname) sub,
      specUpToSubs_length k url rest]

end

/-- Claim C2: for every `k ≥ 0`, `walk` with `depth = k` yields exactly the
records of the directories reachable within `k` hops below the root, in
truncated pre-order (spec-side `specUpTo`), with one record per such
directory and none beyond `k` hops; in particular with `depth = 0` it
yields exactly the root's own record and descends into no subdirectory. -/
theorem claim_C2 (k : Nat) (url : String) (t : FTree) :
    walk url ((k : Int)) t = specUpTo k url t ∧
    (walk url ((k : Int)) t).length = countUpTo k t ∧
    walk url 0 t = [(url, t.dirNames, t.files)] := by
  have h := walk_nat_eq_specUpTo k url t
  refine ⟨h, by rw [h]; exact specUpTo_length k url t, ?_⟩
  cases t with
  | node subs files =>
    simp [walk, FTree.dirNames, FTree.subs, FTree.files]

/-- Appending `"/"` (when needed) and a nonempty directory name to a url
makes the result end with a slash exactly when the directory name does. -/
theorem endsWithSlash_joinUrl (url dirname : String) (h : dirname ≠ "") :
    endsWithSlash (joinUrl url dirname) = endsWithSlash dirname := by
  have hd : dirname.data ≠ [] := by
    intro hdata
    exact h (String.ext (by rw [hdata]))
  simp only [joinUrl, endsWithSlash, String.data_append, decide_eq_decide]
  rw [List.getLast?_append_of_ne_nil _ hd]

mutual

/-- When the root url does not end with a slash and all directory names in
the tree are nonempty and slash-free, no record of `walk` has a url ending
with a slash. -/
theorem walk_urls_no_slash (url : String) (d : Int) (t : FTree)
    (hurl : endsWithSlash url = false) (hg : goodNamesT t = true) :
    ∀ r ∈ walk url d t, endsWithSlash r.1 = false := by
  cases t with
  | node subs files =>
    intro r hr
    simp only [walk] at hr
    simp only [goodNamesT] at hg
    rcases List.mem_cons.mp hr with h | h
    · rw [h]
      exact hurl
    · by_cases hd : d = 0
      · rw [if_pos hd] at h
        simp at h
      · rw [if_neg hd] at h
        exact walkSubs_urls_no_slash url d subs hg r h

/-- The loop counterpart of `walk_urls_no_slash`. -/
theorem walkSubs_urls_no_slash (url : String) (d : Int)
    (l : List (String × FTree)) (hg : goodNamesSubs l = true) :
    ∀ r ∈ walkSubs url d l, endsWithSlash r.1 = false := by
  cases l with
  | nil => intro r hr; simp [walkSubs] at hr
  | cons p rest =>
    obtain ⟨dirname, sub⟩ := p
    intro r hr
    simp only [walkSubs] at hr
    simp only [goodNamesSubs, Bool.and_eq_true] at hg
    obtain ⟨⟨⟨hne, hslash⟩, hsub⟩, hrest⟩ := hg
    rcases List.mem_append.mp hr with h | h
    · refine walk_urls_no_slash (joinUrl url dirname) (d - 1) sub ?_ hsub r h
      rw [endsWithSlash_joinUrl url dirname (by simpa using hne)]
      simpa using hslash
    · exact walkSubs_urls_no_slash url d rest hrest r h

end

/-- Claim C7 (counterexample): `walk` performs no normalization of its
input url — called on a root url that ends with `/`, its very first
yielded record carries that url verbatim, ending with `/`, contradicting
"no yielded record's url ends with '/'". -/
theorem claim_C7_counterexample :
    walk "ftp://h/a/" (-1) (FTree.node [] []) = [("ftp://h/a/", [], [])] ∧
    endsWithSlash "ftp://h/a/" = true := by
  constructor
  · simp [walk, walkSubs]
  · decide

/-- Claim C7 (amended): `walk` does not normalize its input url: the first
yielded record's url is the caller's url verbatim (a trailing separator is
preserved, not stripped); and when the caller's url does not end with `/`
and every directory name in the tree is nonempty and slash-free, no
yielded record's url ends with `/` (each child url being
`parent + "/" + name`). -/
theorem claim_C7 (url : String) (d : Int) (t : FTree) :
    (∃ tail, walk url d t = (url, t.dirNames, t.files) :: tail) ∧
    (endsWithSlash url = false → goodNamesT t = true →
      ∀ r ∈ walk url d t, endsWithSlash r.1 = false) := by
  constructor
  · cases t with
    | node subs files =>
      exact ⟨if d = 0 then [] else walkSubs url d subs,
        by simp [walk, FTree.dirNames, FTree.subs, FTree.files]⟩
  · intro hurl hg
    exact walk_urls_no_slash url d t hurl hg

/-- Claim C7 witness: the amended claim instantiated on `sampleTree` with
a slash-free root url. -/
theorem claim_C7_witness :
    (∃ tail, walk "ftp://h/a" (-1) sampleTree =
      ("ftp://h/a", sampleTree.dirNames, sampleTree.files) :: tail) ∧
    (∀ r ∈ walk "ftp://h/a" (-1) sampleTree, endsWithSlash r.1 = false) := by
  have h := claim_C7 "ftp://h/a" (-1) sampleTree
  refine ⟨h.1, h.2 (by decide) ?_⟩
  simp [sampleTree, goodNamesT, goodNamesSubs, endsWithSlash]

/-- Claim C8: when the server rejects the change-directory request for the
root url (the path does not exist or is not accessible), `walk` raises the
path-specific 550 error before yielding anything: the produced record list
is empty and the error names the offending url. -/
theorem claim_C8 (srv : ServerMap) (url : String) (depth : Int) (fuel : Nat)
    (hfuel : 0 < fuel) (hmissing : srv url = none) :
    walkS srv fuel url depth =
      ([], some ("550 " ++ url ++ ": No such file or directory")) := by
  cases fuel with
  | zero => omega
  | succ fuel =>
    simp [walkS, listdirS, hmissing]

/-- Claim C8 witness: a server with no directories rejects the root, and
the walk yields nothing and surfaces the 550 error. -/
theorem claim_C8_witness :
    0 < 1 ∧
    (fun (_ : String) => (none : Option (List String × List String)))
        "ftp://h/missing" = none ∧
    walkS (fun _ => none) 1 "ftp://h/missing" (-1) =
      ([], some ("550 " ++ "ftp://h/missing" ++ ": No such file or directory")) :=
  ⟨Nat.one_pos, rfl,
   claim_C8 (fun _ => none) "ftp://h/missing" (-1) 1 Nat.one_pos rfl⟩

/-- Splitting at the first occurrence of a separator that is absent from
the left part recovers the two parts. -/
theorem pySplitOnce_append (sep : Char) (a b : List Char) (ha : sep ∉ a) :
    pySplitOnce sep (a ++ sep :: b) = some (a, b) := by
  induction a with
  | nil => simp [pySplitOnce]
  | cons c cs ih =>
    simp only [List.cons_append, pySplitOnce, List.append_eq]
    have hc : ¬ c = sep := fun h => ha (by simp [h])
    rw [if_neg hc]
    rw [ih (fun h => ha (List.mem_cons_of_mem _ h))]

/-- One iteration of the facts loop on a well-formed leading fact
`keyword=value;`: it produces the lower-cased keyword and the value, and
recurses on the remaining facts. -/
theorem parseFactsLoop_step (k v : String) (tail : List Char)
    (hk : '=' ∉ k.data ∧ ';' ∉ k.data) (hv : '=' ∉ v.data ∧ ';' ∉ v.data) :
    parseFactsLoop ((k.data ++ '=' :: v.data) ++ ';' :: tail) =
      (match parseFactsLoop tail with
       | Except.error e => Except.error e
       | Except.ok t => Except.ok ((pyLower k, v) :: t)) := by
  have hne : (k.data ++ '=' :: v.data) ++ ';' :: tail ≠ [] := by simp
  have hnotin : ';' ∉ k.data ++ '=' :: v.data := by
    intro hmem
    rcases List.mem_append.mp hmem with h | h
    · exact hk.2 h
    · rcases List.mem_cons.mp h with h | h
      · exact absurd h.symm (by decide)
      · exact hv.2 h
  have hknotin : '=' ∉ k.data := hk.1
  rw [parseFactsLoop.eq_def]
  rw [if_neg hne]
  rw [pySplitOnce_append ';' (k.data ++ '=' :: v.data) tail hnotin]
  have hvc : v.data.contains '=' = false := by
    rw [List.contains_eq_any_beq]
    simp only [List.any_eq_false]
    intro c hcmem
    simp only [beq_iff_eq]
    intro hceq
    exact hv.1 (hceq ▸ hcmem)
  split
  · next heq => exact absurd heq (by simp)
  · next fact restFacts heq =>
      injection heq with hpair
      injection hpair with hfact hrest
      subst hfact
      subst hrest
      simp only [pySplitOnce_append '=' k.data v.data hknotin, hvc]
      rfl

/-- The underlying character list of a rebuilt facts string. -/
theorem mkFacts_data (k v : String) (rest : List (String × String)) :
    (mkFacts ((k, v) :: rest)).data =
      (k.data ++ '=' :: v.data) ++ ';' :: (mkFacts rest).data := by
  have he : ("=" : String).data = ['='] := rfl
  have hs : (";" : String).data = [';'] := rfl
  simp [mkFacts, String.data_append, he, hs]

/-- On clean fact pairs the facts loop succeeds and lower-cases each
keyword, in order. -/
theorem parseFactsLoop_mkFacts (l : List (String × String))
    (hc : cleanFacts l) :
    parseFactsLoop (mkFacts l).data =
      Except.ok (l.map fun p => (pyLower p.1, p.2)) := by
  induction l with
  | nil => simp [mkFacts, parseFactsLoop]
  | cons p rest ih =>
    obtain ⟨k, v⟩ := p
    have hp : cleanFact (k, v) := hc (k, v) (List.mem_cons_self _ _)
    have hrest : cleanFacts rest := fun q hq => hc q (List.mem_cons_of_mem _ hq)
    rw [mkFacts_data k v rest]
    rw [parseFactsLoop_step k v (mkFacts rest).data
      ⟨hp.1.1, hp.1.2.1⟩ ⟨hp.2.1, hp.2.2.1⟩]
    rw [ih hrest]
    rfl

/-- A clean facts string contains no space. -/
theorem mkFacts_no_space (l : List (String × String)) (hc : cleanFacts l) :
    ' ' ∉ (mkFacts l).data := by
  induction l with
  | nil => simp [mkFacts]
  | cons p rest ih =>
    obtain ⟨k, v⟩ := p
    have hp : cleanFact (k, v) := hc (k, v) (List.mem_cons_self _ _)
    have hrest : cleanFacts rest := fun q hq => hc q (List.mem_cons_of_mem _ hq)
    rw [mkFacts_data k v rest]
    intro hmem
    rcases List.mem_append.mp hmem with h | h
    · rcases List.mem_append.mp h with h | h
      · exact hp.1.2.2 h
      · rcases List.mem_cons.mp h with h | h
        · exact absurd h.symm (by decide)
        · exact hp.2.2.2 h
    · rcases List.mem_cons.mp h with h | h
      · exact absurd h.symm (by decide)
      · exact ih hrest h

/-- Claim C9 (counterexample): on an MLSD line whose pathname carries a
trailing space, "everything after the first space" is `"DATA "`, but the
parser strips the pathname and returns `"DATA"`, so the claim's universal
description of the pathname fails. -/
theorem claim_C9_counterexample :
    pySplitOnce ' ' "type=dir;size=0; DATA ".data =
      some ("type=dir;size=0;".data, "DATA ".data) ∧
    parse_mlsd_line "type=dir;size=0; DATA " =
      Except.ok ("DATA", [("type", "dir"), ("size", "0")]) ∧
    ("DATA" : String) ≠ "DATA " := by
  refine ⟨by decide, ?_, by decide⟩
  simp [parse_mlsd_line, pySplitOnce, parseFactsLoop, pyLower, pyStrip,
    dropSpaces, pyIsSpace]

/-- Claim C9 (amended): the MLSD line `"type=dir;size=0; DATA"` parses to
pathname `"DATA"` with facts mapping `"type"` to `"dir"` and `"size"` to
`"0"`; and for every well-formed MLSD line `<facts> <pathname>` (facts a
semicolon-terminated series of clean `keyword=value` pairs), the parsed
pathname is everything after the first space stripped of leading and
trailing whitespace, and every fact keyword is lower-cased in the
resulting mapping. -/
theorem claim_C9 (l : List (String × String)) (path : String)
    (hc : cleanFacts l) :
    parse_mlsd_line "type=dir;size=0; DATA" =
      Except.ok ("DATA", [("type", "dir"), ("size", "0")]) ∧
    factsDict [("type", "dir"), ("size", "0")] "type" = some "dir" ∧
    factsDict [("type", "dir"), ("size", "0")] "size" = some "0" ∧
    parse_mlsd_line (mkFacts l ++ " " ++ path) =
      Except.ok (String.mk (pyStrip path.data),
        l.map fun p => (pyLower p.1, p.2)) := by
  refine ⟨?_, by decide, by decide, ?_⟩
  · simp [parse_mlsd_line, pySplitOnce, parseFactsLoop, pyLower, pyStrip,
      dropSpaces, pyIsSpace]
  · have hdata : (mkFacts l ++ " " ++ path).data =
        (mkFacts l).data ++ ' ' :: path.data := by
      have hsp : (" " : String).data = [' '] := rfl
      simp [String.data_append, hsp]
    have hnospace : ' ' ∉ (mkFacts l).data := mkFacts_no_space l hc
    simp only [parse_mlsd_line, hdata]
    rw [pySplitOnce_append ' ' (mkFacts l).data path.data hnospace]
    show (match parseFactsLoop (mkFacts l).data with
          | Except.error e => Except.error e
          | Except.ok facts =>
            Except.ok (String.mk (pyStrip path.data), facts)) =
        Except.ok (String.mk (pyStrip path.data),
          l.map fun p => (pyLower p.1, p.2))
    rw [parseFactsLoop_mkFacts l hc]

/-- Claim C9 witness: the amended claim instantiated on a fact list with
an upper-case keyword and a pathname containing an inner space. -/
theorem claim_C9_witness :
    cleanFacts [("Type", "dir")] ∧
    parse_mlsd_line (mkFacts [("Type", "dir")] ++ " " ++ "My File") =
      Except.ok ("My File", [("type", "dir")]) :=
  ⟨by decide,
   (claim_C9 [("Type", "dir")] "My File" (by decide)).2.2.2⟩

/-- Claim C1 witness: the unbounded walk of `sampleTree` instantiated at
a concrete root url. -/
theorem claim_C1_witness :
    walk "ftp://h/a" (-1) sampleTree = specPreorder "ftp://h/a" sampleTree ∧
    (walk "ftp://h/a" (-1) sampleTree).length = FTree.size sampleTree :=
  claim_C1 "ftp://h/a" sampleTree

/-- Claim C2 witness: the depth-1 walk of `sampleTree` instantiated at a
concrete root url. -/
theorem claim_C2_witness :
    walk "ftp://h/a" ((1 : Nat) : Int) sampleTree =
      specUpTo 1 "ftp://h/a" sampleTree ∧
    (walk "ftp://h/a" ((1 : Nat) : Int) sampleTree).length =
      countUpTo 1 sampleTree ∧
    walk "ftp://h/a" 0 sampleTree =
      [("ftp://h/a", sampleTree.dirNames, sampleTree.files)] :=
  claim_C2 1 "ftp://h/a" sampleTree

/-- Claim C4 witness: a supplied connection is not closed even when the
body raises. -/
theorem claim_C4_witness :
    quitCount (connect_and_login true false true) = 0 :=
  claim_C4 false true

end Tfd
